import Mathlib

/-!
Shallow embedding of `crawler.py` (linkareer crawler): data model, the
reconciliation step `persist_contests_to_rds`, the crawl orchestrator
`crawl_pages_by_click`, the listing extraction `fetch_activity_urls`
(stabilization loop and URL deduplication), and the `main` entry point.

Browser, DOM and database effects are modelled by explicit stubs:
the listing stub maps a page index to the URL list the listing fetch
yields (`none` = timeout of the list-body wait), the detail stub maps a
detail URL to the extracted record (`none` = timeout/crash, after which
the crawler restarts its driver and keeps going), and the database is a
list of `ContestRow` values.
-/

/-- Calendar date as produced by `datetime.strptime(s, "%Y.%m.%d").date()`. -/
structure PDate where
  year : Nat
  month : Nat
  day : Nat
deriving DecidableEq

/-- Gregorian leap-year test, as used by Python's `datetime`. -/
def isLeapYear (y : Nat) : Bool :=
  (y % 4 == 0 && y % 100 != 0) || (y % 400 == 0)

/-- Number of days of month `m` in year `y`. -/
def daysInMonth (y m : Nat) : Nat :=
  if m == 2 then (if isLeapYear y then 29 else 28)
  else if m == 4 || m == 6 || m == 9 || m == 11 then 30
  else 31

/-- Split a character list at every occurrence of `sep`. -/
def splitOnChar (sep : Char) : List Char → List (List Char)
  | [] => [[]]
  | c :: rest =>
    let r := splitOnChar sep rest
    if c = sep then [] :: r
    else
      match r with
      | [] => [[c]]
      | g :: gs => (c :: g) :: gs

/-- ASCII decimal digit test. -/
def isDigitChar (c : Char) : Bool :=
  48 ≤ c.toNat && c.toNat ≤ 57

/-- Value of an all-digit character list. -/
def digitsToNat (cs : List Char) : Nat :=
  cs.foldl (fun a c => a * 10 + (c.toNat - 48)) 0

/-- Parse a nonempty all-digit character list. -/
def parseNatChars (cs : List Char) : Option Nat :=
  if cs ≠ [] && cs.all isDigitChar then some (digitsToNat cs) else none

/-- Model of `_parse_date` (crawler.py:551): `None`/empty input gives `None`;
otherwise `strptime(s, "%Y.%m.%d")` succeeds exactly for `Y.M.D` with
numeric components (year at most 4 digits, month/day at most 2) forming a
real calendar date; on failure the code logs and returns `None`. -/
def _parse_date (dateStr : Option String) : Option PDate :=
  match dateStr with
  | none => none
  | some s =>
    if s = "" then none
    else
      match splitOnChar '.' s.data with
      | [ys, ms, ds] =>
        match parseNatChars ys, parseNatChars ms, parseNatChars ds with
        | some y, some m, some d =>
          if ys.length ≤ 4 && ms.length ≤ 2 && ds.length ≤ 2
              && 1 ≤ y && 1 ≤ m && m ≤ 12 && 1 ≤ d && d ≤ daysInMonth y m
          then some ⟨y, m, d⟩ else none
        | _, _, _ => none
      | _ => none

/-- Python truthiness of an optional string: `None` and `""` are falsy. -/
def truthyStr : Option String → Bool
  | none => false
  | some s => !(s == "")

/-- Python `a or b` on optional strings. -/
def pyOr (a b : Option String) : Option String :=
  if truthyStr a then a else b

/-- ASCII whitespace (the characters Python `int` strips). -/
def isSpaceChar (c : Char) : Bool :=
  c = ' ' || c = '\t' || c = '\n' || c = '\r' || c = '\x0b' || c = '\x0c'

/-- Model of Python `int(s)` on a string: optional surrounding whitespace,
optional sign, then decimal digits; anything else raises `ValueError`
(`none`). Digit-group underscores are not modelled. -/
def pyIntStr (s : String) : Option Int :=
  let t := ((s.data.dropWhile isSpaceChar).reverse.dropWhile isSpaceChar).reverse
  match t with
  | [] => none
  | '-' :: ds => (parseNatChars ds).map (fun n => -(n : Int))
  | '+' :: ds => (parseNatChars ds).map (fun n => (n : Int))
  | ds => (parseNatChars ds).map (fun n => (n : Int))

/-- `int(record.get("views") or 0)` (crawler.py:652): falsy (`None`/empty)
views give 0, otherwise the string must parse as an integer; `none` models
the `ValueError` escaping the whole persistence call. -/
def viewsOf (v : Option String) : Option Int :=
  match v with
  | none => some 0
  | some s => if s = "" then some 0 else pyIntStr s

/-- The record dictionary built by `fetch_activity_details`
(crawler.py:205-221), field for field. `activity_category` is always a
list (default `[]`); every other field defaults to `None`. -/
structure ActivityRecord where
  activity_title : Option String
  activity_url : Option String
  activity_category : List String
  start_date : Option String
  end_date : Option String
  activity_img : Option String
  organization_name : Option String
  detail_url : Option String
  award_scale : Option String
  benefits : Option String
  additional_benefits : Option String
  target_participants : Option String
  company_type : Option String
  views : Option String
deriving DecidableEq

/-- `organization = record.get("organization_name") or title or "정보없음"`
(crawler.py:649). -/
def orgFallback (r : ActivityRecord) : Option String :=
  pyOr r.organization_name (pyOr r.activity_title (some "정보없음"))

/-- A persisted row of the `contests` table. -/
structure ContestRow where
  id : Nat
  categories : String
  end_date : PDate
  image_url : String
  name : String
  organization_name : String
  site_url : String
  start_date : PDate
  award_scale : String
  benefits : String
  additional_benefits : String
  target_participants : String
  company_type : String
  views : Int
deriving DecidableEq

/-- The values the body of the record loop (crawler.py:643-660) computes
for one record that survived the validity filter. -/
structure PreStage where
  start_date : PDate
  end_date : PDate
  image_url : String
  site_url : String
  title : String
  organization : String
  category_str : String
  award_scale : String
  benefits : String
  additional_benefits : String
  target_participants : String
  company_type : String
  views : Int
deriving DecidableEq

/-- `key = (title, organization)` (crawler.py:660). -/
def PreStage.key (pre : PreStage) : String × String :=
  (pre.title, pre.organization)

/-- One tuple appended to `insert_payloads` (crawler.py:669-685), in the
column order of `insert_sql`. -/
structure InsertPayload where
  categories : String
  end_date : PDate
  image_url : String
  name : String
  organization_name : String
  site_url : String
  start_date : PDate
  award_scale : String
  benefits : String
  additional_benefits : String
  target_participants : String
  company_type : String
  views : Int
deriving DecidableEq

/-- One tuple appended to `update_payloads` (crawler.py:667): the
`update_sql` statement sets `start_date`, `end_date` and `views` of the
row with the given `id` and nothing else. -/
structure UpdatePayload where
  start_date : PDate
  end_date : PDate
  views : Int
  id : Nat
deriving DecidableEq

/-- Field computation of the record loop (crawler.py:644-658): parse the
dates, take `activity_img`, fall `activity_url` back to `detail_url`,
join the categories, parse the views (a failure there is a `ValueError`
raised before the validity filter runs); then the filter
`if not (start_date and end_date and image_url and site_url and title)`
drops the record (`ok none`). -/
def stagePre (r : ActivityRecord) : Except Unit (Option PreStage) :=
  let start_date := _parse_date r.start_date
  let end_date := _parse_date r.end_date
  let image_url := r.activity_img
  let site_url := pyOr r.activity_url r.detail_url
  let title := r.activity_title
  let organization := orgFallback r
  let category_str := String.intercalate "," r.activity_category
  match viewsOf r.views with
  | none => .error ()
  | some views =>
    match start_date, end_date with
    | some sd, some ed =>
      if truthyStr image_url && truthyStr site_url && truthyStr title then
        .ok (some ⟨sd, ed, image_url.getD "", site_url.getD "", title.getD "",
          organization.getD "", category_str, r.award_scale.getD "",
          r.benefits.getD "", r.additional_benefits.getD "",
          r.target_participants.getD "", r.company_type.getD "", views⟩)
      else .ok none
    | _, _ => .ok none

/-- Run `stagePre` over the whole batch in order, keeping the records
that survive the filter. -/
def preAll : List ActivityRecord → Except Unit (List PreStage)
  | [] => .ok []
  | r :: rest =>
    match stagePre r with
    | .error e => .error e
    | .ok o =>
      match preAll rest with
      | .error e => .error e
      | .ok tail =>
        match o with
        | none => .ok tail
        | some pre => .ok (pre :: tail)

/-- The insert tuple built from a staged record (crawler.py:669-685). -/
def insOf (pre : PreStage) : InsertPayload :=
  ⟨pre.category_str, pre.end_date, pre.image_url, pre.title, pre.organization,
    pre.site_url, pre.start_date, pre.award_scale, pre.benefits,
    pre.additional_benefits, pre.target_participants, pre.company_type, pre.views⟩

/-- The update tuple built from a staged record (crawler.py:667). -/
def updOf (pre : PreStage) (id0 : Nat) : UpdatePayload :=
  ⟨pre.start_date, pre.end_date, pre.views, id0⟩

/-- `existing_map` lookup (crawler.py:615-618): the dict comprehension over
the `SELECT` result maps each `(name, organization_name)` to the id of the
LAST row carrying that key (later assignments overwrite earlier ones). -/
def lookupLast (store : List ContestRow) (k : String × String) : Option Nat :=
  (store.reverse.find? (fun row => row.name == k.1 && row.organization_name == k.2)).map
    (fun row => row.id)

/-- The staging loop (crawler.py:643-685): each surviving record goes to
`update_payloads` when its key is in `existing_map`, else to
`insert_payloads`; relative order inside each list is batch order. -/
def stageAll (idx : String × String → Option Nat) (records : List ActivityRecord) :
    Except Unit (List InsertPayload × List UpdatePayload) :=
  match preAll records with
  | .error e => .error e
  | .ok pres =>
    .ok (pres.filterMap (fun pre => if (idx pre.key).isSome then none else some (insOf pre)),
         pres.filterMap (fun pre => (idx pre.key).map (fun i => updOf pre i)))

/-- `INSERT` execution: the database appends one row per payload,
assigning fresh consecutive identities. -/
def insertRows (nextId : Nat) : List InsertPayload → List ContestRow
  | [] => []
  | p :: rest =>
    ⟨nextId, p.categories, p.end_date, p.image_url, p.name, p.organization_name,
      p.site_url, p.start_date, p.award_scale, p.benefits, p.additional_benefits,
      p.target_participants, p.company_type, p.views⟩ :: insertRows (nextId + 1) rest

/-- Effect of one `update_sql` execution: only `start_date`, `end_date`
and `views` of the row with the matching id change. -/
def applyUpdate (u : UpdatePayload) (row : ContestRow) : ContestRow :=
  if row.id = u.id then
    { row with start_date := u.start_date, end_date := u.end_date, views := u.views }
  else row

/-- `UPDATE` execution over the whole staged list, in order. -/
def applyUpdates (store : List ContestRow) (upds : List UpdatePayload) : List ContestRow :=
  upds.foldl (fun s u => s.map (applyUpdate u)) store

/-- Largest id present, for assigning fresh insert ids. -/
def maxId (store : List ContestRow) : Nat :=
  store.foldl (fun a r => max a r.id) 0

inductive PersistErr
  | configMissing (name : String)
  | badUrl
  | valueError
deriving DecidableEq

structure PersistResult where
  store : List ContestRow
  insertedCount : Nat
  updatedCount : Nat
deriving DecidableEq

/-- The transaction body of `persist_contests_to_rds` (crawler.py:606-701):
load the key index, stage inserts/updates, run all inserts, then all
updates, then commit. No statement of the transaction deletes a row. -/
def persistCore (records : List ActivityRecord) (store : List ContestRow) :
    Except PersistErr PersistResult :=
  match stageAll (lookupLast store) records with
  | .error _ => .error .valueError
  | .ok (ins, upds) =>
    .ok ⟨applyUpdates (store ++ insertRows (maxId store + 1) ins) upds,
         ins.length, upds.length⟩

/-- `_get_required_env` (crawler.py:561): absent or empty (falsy) value
raises `RuntimeError`. -/
def _get_required_env (env : String → Option String) (varName : String) :
    Except String String :=
  match env varName with
  | none => .error varName
  | some v => if v = "" then .error varName else .ok v

/-- Split a character list at its first `"://"`, when one occurs. -/
def splitScheme : List Char → Option (List Char × List Char)
  | ':' :: '/' :: '/' :: rest => some ([], rest)
  | c :: rest => (splitScheme rest).map (fun pr => (c :: pr.1, pr.2))
  | [] => none

/-- Model of `_parse_mysql_url` (crawler.py:568) restricted to
`[jdbc:]scheme://host[:port]/database` shapes: strip a `jdbc:` prefix,
split scheme from netloc and path, default port 3306; missing host or
database raises. -/
def _parse_mysql_url (url : String) : Except String (String × Nat × String) :=
  let u := match url.data with
    | 'j' :: 'd' :: 'b' :: 'c' :: ':' :: rest => rest
    | cs => cs
  match splitScheme u with
  | none => .error "RDS_URL must include host and database"
  | some (_, rest) =>
    let netloc := rest.takeWhile (fun c => c ≠ '/')
    let path := rest.dropWhile (fun c => c ≠ '/')
    let hostPort :=
      match splitOnChar ':' netloc with
      | [h] => some (h, 3306)
      | [h, p] => (parseNatChars p).map (fun n => (h, n))
      | _ => none
    match hostPort with
    | none => .error "RDS_URL must include host and database"
    | some (host, port) =>
      let database := path.dropWhile (fun c => c = '/')
      if host = [] || database = [] then .error "RDS_URL must include host and database"
      else .ok (⟨host⟩, port, ⟨database⟩)

/-- `persist_contests_to_rds` (crawler.py:583): an empty batch returns
before anything else (even the configuration is never read); otherwise
the connection configuration is read (`RDS_URL`, optional `RDS_PORT`,
`RDS_USERNAME`, `RDS_PASSWORD`, in that order) and the transaction body
runs against the store. -/
def persist_contests_to_rds (env : String → Option String)
    (records : List ActivityRecord) (store : List ContestRow) :
    Except PersistErr PersistResult :=
  if records.isEmpty then .ok ⟨store, 0, 0⟩
  else
    match _get_required_env env "RDS_URL" with
    | .error n => .error (.configMissing n)
    | .ok url =>
      match _parse_mysql_url url with
      | .error _ => .error .badUrl
      | .ok _ =>
        match (match env "RDS_PORT" with
               | none => some (0 : Int)
               | some s => if s = "" then some 0 else pyIntStr s) with
        | none => .error .valueError
        | some _ =>
          match _get_required_env env "RDS_USERNAME" with
          | .error n => .error (.configMissing n)
          | .ok _ =>
            match _get_required_env env "RDS_PASSWORD" with
            | .error n => .error (.configMissing n)
            | .ok _ => persistCore records store

/-! ## Listing extraction: stabilization loop and URL deduplication -/

/-- The React-stabilization loop of `fetch_activity_urls`
(crawler.py:142-159), run over the successive anchor counts: state is
`prev_count` (initially `-1`), `stable_count` (initially 0) and the number
of samples taken so far; after each sample the run counter is bumped when
the count equals the previous one and reset otherwise, and the loop
breaks as soon as it reaches 3. Returns (samples taken, broke early). -/
def stabLoopAux : List Nat → Int → Nat → Nat → Nat × Bool
  | [], _, _, taken => (taken, false)
  | c :: rest, prev, stable, taken =>
    let stable' := if (c : Int) = prev then stable + 1 else 0
    if 3 ≤ stable' then (taken + 1, true)
    else stabLoopAux rest (c : Int) stable' (taken + 1)

/-- The stabilization loop with its `for _ in range(20)` bound, sampling
the anchor count at each poll from the page stub `counts`. -/
def stabilize (counts : Nat → Nat) : Nat × Bool :=
  stabLoopAux ((List.range 20).map counts) (-1) 0 0

/-- Some four consecutive samples are equal, i.e. the sampled count stays
unchanged across three consecutive polls. -/
def hasRun4 : List Nat → Bool
  | a :: b :: c :: d :: rest => (a == b && b == c && c == d) || hasRun4 (b :: c :: d :: rest)
  | _ => false

/-- Boolean list membership for strings (the `seen` set of the
extraction loop). -/
def memb (x : String) : List String → Bool
  | [] => false
  | y :: ys => x == y || memb x ys

/-- The anchors parsed from the listing (crawler.py:171-182): `None` and
empty `href`s are skipped, the rest are resolved (`urljoin`) against the
site base; `resolve` abstracts `urljoin(BASE_URL, ·)`. -/
def cleanMap (resolve : String → String) : List (Option String) → List String
  | [] => []
  | none :: rest => cleanMap resolve rest
  | some s :: rest =>
    if s = "" then cleanMap resolve rest else resolve s :: cleanMap resolve rest

/-- The dedup loop of `fetch_activity_urls` (crawler.py:168-182): walk the
anchors, skip falsy hrefs, resolve, and append each resolved URL not in
`seen`, extending `seen`. -/
def extractLoop (resolve : String → String) :
    List (Option String) → List String → List String → List String
  | [], _, urls => urls
  | h :: rest, seen, urls =>
    match h with
    | none => extractLoop resolve rest seen urls
    | some s =>
      if s = "" then extractLoop resolve rest seen urls
      else
        let full := resolve s
        if memb full seen then extractLoop resolve rest seen urls
        else extractLoop resolve rest (full :: seen) (urls ++ [full])

/-- Deduplication as the spec words it (§8 Dedup): keep each URL's first
occurrence, in order, dropping every later duplicate. Stated from the
spec for comparison with the loop above. -/
def firstSeenDedup : List String → List String
  | [] => []
  | x :: xs => x :: (firstSeenDedup xs).filter (fun y => !(y == x))

/-- The generic-state dedup: like `firstSeenDedup` but with an initial
`seen` set (matches the loop's accumulator). -/
def dedupSeen (seen : List String) : List String → List String
  | [] => []
  | x :: xs => if memb x seen then dedupSeen seen xs else x :: dedupSeen (x :: seen) xs

/-- `fetch_activity_urls` (crawler.py:122-185) against a page stub
`anchorsAt` giving, for each successive `find_elements` call, the hrefs of
the detail anchors then present: wait for the list body, run the
stabilization loop over the sampled counts, then query once more and
extract the deduplicated resolved URLs. -/
def fetch_activity_urls (anchorsAt : Nat → List (Option String))
    (resolve : String → String) : List String :=
  let counts := (List.range 20).map (fun i => (anchorsAt i).length)
  let t := (stabLoopAux counts (-1) 0 0).1
  extractLoop resolve (anchorsAt t) [] []

/-! ## Crawl orchestrator -/

inductive CrawlErr
  | nameError
  | attributeErrorDriverNone
deriving DecidableEq

/-- Python locals of `crawl_pages_by_click`'s page loop
(crawler.py:482-514). `urls`, `limit` and `pageUrl` are `none` while the
corresponding Python local is still unbound. -/
structure PageLoopSt where
  driverOpen : Bool
  urls : Option (List String)
  limit : Option Nat
  pageUrl : Option Nat
  visitedPages : List Nat
deriving DecidableEq

/-- The page loop (crawler.py:482-514): per page, start the driver, open
the listing URL (a page visit), wait for the list body (timeout: stop and
break), fetch the URL list (empty: stop and break), set
`limit = per_page_limit or len(urls)` and continue. The stub `pages`
yields `none` for a list-body timeout and the fetched URLs otherwise. -/
def pageLoop (pages : Nat → Option (List String)) (perPageLimit : Option Nat) :
    List Nat → PageLoopSt → PageLoopSt
  | [], st => st
  | p :: rest, st =>
    let st := { st with driverOpen := true, pageUrl := some p,
                        visitedPages := st.visitedPages ++ [p] }
    match pages p with
    | none => { st with driverOpen := false }
    | some urls =>
      if urls.isEmpty then { st with urls := some urls, driverOpen := false }
      else
        let limit := match perPageLimit with
          | none => urls.length
          | some l => if l = 0 then urls.length else l
        pageLoop pages perPageLimit rest { st with urls := some urls, limit := some limit }

/-- State of the detail-visit loop (crawler.py:516-546). -/
structure DetailLoopSt where
  driverOpen : Bool
  collected : List ActivityRecord
  detailCount : Nat
  restarts : Nat
  detailVisited : List String
deriving DecidableEq

/-- The detail-visit loop exactly as indented in the source
(crawler.py:516-546): before each URL, when `detail_count` is a nonzero
multiple of 10, stop and restart the driver and re-open the listing page
(a preventive restart); then call `fetch_activity_details` — which, with
the driver stopped (`self.driver is None`), raises an uncaught
`AttributeError` — count the visit, collect a non-null record, and then
run the loop body's trailing `self.stop()`. -/
def detailLoop (details : String → Option ActivityRecord) :
    List String → DetailLoopSt → DetailLoopSt × Option CrawlErr
  | [], st => (st, none)
  | url :: rest, st =>
    let st :=
      if st.detailCount > 0 && st.detailCount % 10 == 0 then
        { st with driverOpen := true, restarts := st.restarts + 1 }
      else st
    if st.driverOpen then
      let d := details url
      let st := { st with
        detailVisited := st.detailVisited ++ [url],
        detailCount := st.detailCount + 1,
        collected := st.collected ++ (match d with | some r => [r] | none => []),
        driverOpen := false }
      detailLoop details rest st
    else
      (st, some .attributeErrorDriverNone)

/-- Outcome of a whole `crawl_pages_by_click` run: the accumulated
records, the listing pages navigated to, the detail URLs actually
visited, the preventive restarts performed, and the uncaught exception if
the run crashed. -/
structure CrawlResult where
  collected : List ActivityRecord
  visitedPages : List Nat
  detailVisited : List String
  restarts : Nat
  crashed : Option CrawlErr
deriving DecidableEq

/-- `crawl_pages_by_click` (crawler.py:476-548) with the loop nesting of
the source: the `for idx, url in enumerate(urls[:limit])` loop at line 516
is indented at the level of the page loop, so it runs ONCE, after the
page loop has finished, over whatever `urls`/`limit` then hold; if either
local was never assigned, evaluating `urls[:limit]` raises `NameError`. -/
def crawl_pages_by_click (pages : Nat → Option (List String))
    (details : String → Option ActivityRecord)
    (maxPages : Nat) (perPageLimit : Option Nat) : CrawlResult :=
  let st := pageLoop pages perPageLimit (List.range' 1 maxPages)
    ⟨false, none, none, none, []⟩
  match st.urls, st.limit with
  | some us, some l =>
    let (dst, err) := detailLoop details (us.take l) ⟨st.driverOpen, [], 0, 0, []⟩
    ⟨dst.collected, st.visitedPages, dst.detailVisited, dst.restarts, err⟩
  | _, _ => ⟨[], st.visitedPages, [], 0, some .nameError⟩

/-! ## main -/

inductive MainErr
  | badEnvInt (name : String)
  | crawl (e : CrawlErr)
  | persistFail (e : PersistErr)
deriving DecidableEq

deriving instance DecidableEq for Except

/-- ASCII `str.lower()`. -/
def lowerAscii (s : String) : String :=
  ⟨s.data.map (fun c =>
    if 65 ≤ c.toNat && c.toNat ≤ 90 then Char.ofNat (c.toNat + 32) else c)⟩

/-- `main` (crawler.py:704-725): read the page/per-page limits from the
environment, run the crawl, and then either dump the records
(`SKIP_DB_WRITE=true`, result `ok none`) or reconcile them against the
store via `persist_contests_to_rds`. The first component is the crawl
trace (what happened before any persistence-time failure). -/
def mainModel (env : String → Option String) (pages : Nat → Option (List String))
    (details : String → Option ActivityRecord) (store : List ContestRow) :
    CrawlResult × Except MainErr (Option PersistResult) :=
  let emptyCrawl : CrawlResult := ⟨[], [], [], 0, none⟩
  match pyIntStr ((env "LINKAREER_PAGE_LIMIT").getD "100") with
  | none => (emptyCrawl, .error (.badEnvInt "LINKAREER_PAGE_LIMIT"))
  | some mp =>
    match (match env "LINKAREER_PER_PAGE_LIMIT" with
           | none => some (none : Option Int)
           | some s => if s = "" then some none else (pyIntStr s).map some) with
    | none => (emptyCrawl, .error (.badEnvInt "LINKAREER_PER_PAGE_LIMIT"))
    | some ppl =>
      let c := crawl_pages_by_click pages details mp.toNat (ppl.map Int.toNat)
      match c.crashed with
      | some e => (c, .error (.crawl e))
      | none =>
        if lowerAscii ((env "SKIP_DB_WRITE").getD "false") = "true" then (c, .ok none)
        else
          match persist_contests_to_rds env c.collected store with
          | .error e => (c, .error (.persistFail e))
          | .ok pr => (c, .ok (some pr))

/-! ## Derived definitions used by the statements -/

/-- The per-row composite of all staged updates, in staging order. -/
def chainUpd (upds : List UpdatePayload) (row : ContestRow) : ContestRow :=
  upds.foldl (fun r u => applyUpdate u r) row

/-- Equality of every persisted column an `update_sql` execution does not
mention: everything except `start_date`, `end_date` and `views`. -/
def frameEq (a b : ContestRow) : Prop :=
  a.id = b.id ∧ a.categories = b.categories ∧ a.image_url = b.image_url ∧
  a.name = b.name ∧ a.organization_name = b.organization_name ∧
  a.site_url = b.site_url ∧ a.award_scale = b.award_scale ∧
  a.benefits = b.benefits ∧ a.additional_benefits = b.additional_benefits ∧
  a.target_participants = b.target_participants ∧ a.company_type = b.company_type

/-- The `(title, organization)` keys of the records of a batch that
survive the validity filter, in batch order. -/
def stagedKeys (records : List ActivityRecord) : List (String × String) :=
  match preAll records with
  | .ok pres => pres.map PreStage.key
  | .error _ => []

/-! ## Concrete inputs for the evaluated runs -/

/-- A fully valid extracted record. -/
def recGood : ActivityRecord :=
  ⟨some "AI Contest", some "https://example.com/apply", ["IT"],
   some "2025.01.01", some "2025.12.31", some "https://img.example.com/1.png",
   some "ExOrg", some "https://linkareer.com/activity/1",
   none, none, none, none, none, some "7"⟩

/-- Valid record with key ("T", "Org"). -/
def recA : ActivityRecord :=
  ⟨some "T", some "https://a.example.com", [],
   some "2025.01.01", some "2025.12.31", some "imgA",
   some "Org", some "https://linkareer.com/activity/10",
   none, none, none, none, none, some "1"⟩

/-- A second valid record with the SAME key ("T", "Org") as `recA`. -/
def recB : ActivityRecord :=
  ⟨some "T", some "https://b.example.com", [],
   some "2025.02.01", some "2025.11.30", some "imgB",
   some "Org", some "https://linkareer.com/activity/11",
   none, none, none, none, none, some "2"⟩

/-- A valid record except that `activity_url` (the siteUrl source) is
null; `detail_url` is present. -/
def recSiteNull : ActivityRecord :=
  ⟨some "T4", none, [],
   some "2025.01.01", some "2025.12.31", some "img4",
   some "Org4", some "https://linkareer.com/activity/9",
   none, none, none, none, none, some "3"⟩

/-- A persisted row whose `endDate` is 2020-01-01 (long expired). -/
def expiredRow : ContestRow :=
  ⟨1, "", ⟨2020, 1, 1⟩, "img", "OldName", "OldOrg", "https://old.example.com",
   ⟨2019, 12, 1⟩, "", "", "", "", "", 0⟩

/-- A persisted row with key ("T", "Org") and id 5. -/
def rowTOrg : ContestRow :=
  ⟨5, "cat", ⟨2025, 1, 1⟩, "imgOld", "T", "Org", "https://old.example.com",
   ⟨2024, 1, 1⟩, "aw", "b", "ab", "tp", "ct", 3⟩

/-- Listing stub: page 1 holds two detail URLs, every later page is
empty. -/
def pagesTwoThenEmpty : Nat → Option (List String) :=
  fun p => if p == 1 then
    some ["https://linkareer.com/activity/1", "https://linkareer.com/activity/2"]
  else some []

/-- Listing stub: every page holds 25 detail URLs. -/
def pagesTwentyFive : Nat → Option (List String) :=
  fun _ => some ((List.range 25).map (fun i => toString i))

/-- Listing stub: every page holds one detail URL. -/
def pagesOne : Nat → Option (List String) :=
  fun _ => some ["https://linkareer.com/activity/1"]

/-- Detail stub: every detail visit succeeds with `recGood`. -/
def detailsOk : String → Option ActivityRecord :=
  fun _ => some recGood

/-- Environment with only `LINKAREER_PAGE_LIMIT=1` set: none of the RDS
connection variables is present. -/
def envOnlyPageLimit : String → Option String :=
  fun n => if n == "LINKAREER_PAGE_LIMIT" then some "1" else none

/-- The anchor-count sequence `[3,5,5,5,7]` of the spec, repeated
periodically over the 20 polls. -/
def seq35557 : Nat → Nat :=
  fun i => [3, 5, 5, 5, 7].getD (i % 5) 0

/-! ## Theorems -/

/-- Claim C1 (code_bug evaluation): with a stubbed listing giving 2 detail
URLs on page 1 and 0 on page 2, the crawl as written visits pages 1 and 2,
stops without a page 3 — but performs ZERO detail visits and returns zero
records, because the detail loop (crawler.py:516) is dedented out of the
page loop and runs once on the final, empty URL list. The claimed
behaviour (exactly 2 detail visits) is the intent its own log lines
describe; the indentation makes the code do otherwise. -/
theorem c1_dedented_loop_eval :
    crawl_pages_by_click pagesTwoThenEmpty detailsOk 100 none =
      ⟨[], [1, 2], [], 0, none⟩ := by decide

/-- Claim C5 (code_bug evaluation): with a restart threshold of 10 and 25
detail URLs queued (one listing page, `max_pages = 1`), the run does not
perform 2 preventive restarts and complete 25 visits: the trailing
`self.stop()` misindented into the per-URL loop (crawler.py:537) closes
the driver after the first visit, so the second `fetch_activity_details`
dereferences `self.driver = None` and the crawl dies with an uncaught
`AttributeError` after exactly 1 visit and 0 preventive restarts. -/
theorem c5_restart_eval :
    crawl_pages_by_click pagesTwentyFive detailsOk 1 none =
      ⟨[recGood], [1], ["0"], 0, some .attributeErrorDriverNone⟩ := by decide

/-- Claim C2 (counterexample): a reconciliation run executed against a
store holding a row with endDate 2020-01-01 does NOT remove it — the
whole transaction contains no delete — so "every reconciliation run first
deletes persisted rows whose endDate precedes the current local calendar
date" is false: here the expired row is still the first row of the
resulting store. -/
theorem c2_counterexample :
    expiredRow.end_date = ⟨2020, 1, 1⟩ ∧
    (persistCore [recA] [expiredRow]).toOption.map
        (fun res => (decide (expiredRow ∈ res.store), res.store.length))
      = some (true, 2) := by decide

/-- Claim C3 (counterexample): reconciling a batch holding two valid
records with the same (name, organizationName) key ("T", "Org") against
an empty store inserts that key twice in one run — the staging loop only
checks the index loaded at the start, never the keys it has already
staged — refuting "never … inserted twice within the same run". -/
theorem c3_counterexample :
    (persistCore [recA, recB] []).toOption.map
        (fun res => (res.store.map (fun row => (row.name, row.organization_name)),
                     res.insertedCount))
      = some ([("T", "Org"), ("T", "Org")], 2) := by decide

/-- Claim C4 (counterexample): a record whose `activity_url` (the siteUrl
source) is null but whose `detail_url` is present is NOT excluded —
`site_url = record.get("activity_url") or record.get("detail_url")`
falls back to the detail URL and the record is inserted — refuting
"a record with siteUrl null is dropped". -/
theorem c4_counterexample :
    recSiteNull.activity_url = none ∧
    (persistCore [recSiteNull] []).toOption.map
        (fun res => (res.insertedCount, res.store.map (fun row => row.site_url)))
      = some (1, ["https://linkareer.com/activity/9"]) := by decide

/-- Claim C6 (counterexample): in the sampled count sequence
3,5,5,5,7,3,5,5,5,7,… the count stays identical for 3 consecutive samples
(samples 1,2,3 are all 5), yet the stabilization loop does NOT stop
early: it takes all 20 samples, because `stable_count` only reaches 3
after three consecutive EQUAL COMPARISONS, i.e. four equal samples. This
refutes "stops early exactly when the count stays identical for 3
consecutive samples" under its plain reading. -/
theorem c6_counterexample :
    seq35557 1 = 5 ∧ seq35557 2 = 5 ∧ seq35557 3 = 5 ∧
    stabilize seq35557 = (20, false) := by decide

/-- Claim C8 (counterexample): with `RDS_URL`, `RDS_USERNAME` and
`RDS_PASSWORD` all absent from the environment, `main` still visits
listing page 1 and one detail page before failing: the required-variable
check lives inside `persist_contests_to_rds`, which `main` only calls
after the crawl returns — refuting "the crawl does not start (no pages
are visited)". -/
theorem c8_counterexample :
    (mainModel envOnlyPageLimit pagesOne detailsOk []).1.visitedPages = [1] ∧
    (mainModel envOnlyPageLimit pagesOne detailsOk []).1.detailVisited =
      ["https://linkareer.com/activity/1"] ∧
    (mainModel envOnlyPageLimit pagesOne detailsOk []).2 =
      .error (.persistFail (.configMissing "RDS_URL")) := by decide

/-! ### Listing dedup (C7) -/

theorem memb_iff (x : String) (l : List String) : memb x l = true ↔ x ∈ l := by
  induction l with
  | nil => simp [memb]
  | cons y ys ih => simp [memb, ih, beq_iff_eq]

theorem extractLoop_eq (resolve : String → String) (l : List (Option String)) :
    ∀ seen acc, extractLoop resolve l seen acc = acc ++ dedupSeen seen (cleanMap resolve l) := by
  induction l with
  | nil => intro seen acc; simp [extractLoop, cleanMap, dedupSeen]
  | cons h rest ih =>
    intro seen acc
    match h with
    | none => simp [extractLoop, cleanMap, ih]
    | some s =>
      by_cases hs : s = ""
      · simp [extractLoop, cleanMap, hs, ih]
      · by_cases hm : memb (resolve s) seen
        · simp [extractLoop, cleanMap, hs, hm, dedupSeen, ih]
        · simp [extractLoop, cleanMap, hs, hm, dedupSeen, ih]

theorem dedupSeen_eq_filter (l : List String) :
    ∀ seen, dedupSeen seen l = (firstSeenDedup l).filter (fun y => !(memb y seen)) := by
  induction l with
  | nil => intro seen; simp [dedupSeen, firstSeenDedup]
  | cons x xs ih =>
    intro seen
    cases hm : memb x seen with
    | true =>
      have hfun : (fun y => !(memb y seen)) = (fun y => (!(memb y seen)) && !(y == x)) := by
        funext a
        by_cases hax : a = x
        · subst hax; simp [hm]
        · simp [hax]
      simp only [dedupSeen, hm, firstSeenDedup, List.filter_cons, hm, Bool.not_true,
        Bool.false_eq_true, if_false, ite_false]
      rw [ih seen, List.filter_filter, hfun]
      simp
    | false =>
      have hfun : (fun y => !(memb y (x :: seen))) = (fun y => (!(memb y seen)) && !(y == x)) := by
        funext a
        simp [memb, Bool.and_comm]
      simp only [dedupSeen, hm, firstSeenDedup, List.filter_cons, Bool.not_false, if_true,
        ite_true]
      rw [ih (x :: seen), List.filter_filter, hfun]
      simp

theorem firstSeenDedup_nodup (l : List String) : (firstSeenDedup l).Nodup := by
  induction l with
  | nil => simp [firstSeenDedup]
  | cons x xs ih =>
    simp only [firstSeenDedup, List.nodup_cons]
    refine ⟨fun hmem => ?_, ih.filter _⟩
    have := List.of_mem_filter hmem
    simp at this

/-- Claim C7: for every listing page — repeated anchors to the same detail
URL included — `fetch_activity_urls` returns exactly the first-seen-order
deduplication of the resolved hrefs of the anchors present at the final
query (anchors with `None`/empty href skipped), hence each distinct
resolved URL exactly once: the result is duplicate-free. Here
`firstSeenDedup` is the spec's dedup (keep the first occurrence of each
URL, in order), stated independently of the loop. -/
theorem c7_listing_dedup (anchorsAt : Nat → List (Option String))
    (resolve : String → String) :
    fetch_activity_urls anchorsAt resolve =
      firstSeenDedup (cleanMap resolve
        (anchorsAt (stabLoopAux ((List.range 20).map
          (fun i => (anchorsAt i).length)) (-1) 0 0).1)) ∧
    (fetch_activity_urls anchorsAt resolve).Nodup := by
  have h : fetch_activity_urls anchorsAt resolve =
      firstSeenDedup (cleanMap resolve
        (anchorsAt (stabLoopAux ((List.range 20).map
          (fun i => (anchorsAt i).length)) (-1) 0 0).1)) := by
    show extractLoop resolve _ [] [] = _
    rw [extractLoop_eq, dedupSeen_eq_filter]
    simp [memb]
  exact ⟨h, h ▸ firstSeenDedup_nodup _⟩

/-! ### Stabilization loop (C6) -/

theorem hasRun4_short (l : List Nat) (h : l.length ≤ 3) : hasRun4 l = false := by
  match l with
  | [] => rfl
  | [_] => rfl
  | [_, _] => rfl
  | [_, _, _] => rfl
  | _ :: _ :: _ :: _ :: _ => simp at h

theorem hasRun4_cons_ne (p c : Nat) (rest : List Nat) (h : ¬ p = c) :
    hasRun4 (p :: c :: rest) = hasRun4 (c :: rest) := by
  have hb : (p == c) = false := by simp [h]
  match rest with
  | [] => rfl
  | [_] => rfl
  | r1 :: r2 :: rr => simp [hasRun4, hb]

theorem hasRun4_cons2_ne (p c : Nat) (rest : List Nat) (h : ¬ p = c) :
    hasRun4 (p :: p :: c :: rest) = hasRun4 (p :: c :: rest) := by
  have hb : (p == c) = false := by simp [h]
  match rest with
  | [] => rfl
  | r1 :: rr => simp [hasRun4, hb]

theorem hasRun4_cons3_ne (p c : Nat) (rest : List Nat) (h : ¬ p = c) :
    hasRun4 (p :: p :: p :: c :: rest) = hasRun4 (p :: p :: c :: rest) := by
  have hb : (p == c) = false := by simp [h]
  simp [hasRun4, hb]

theorem stabLoopAux_run (l : List Nat) : ∀ (p s t : Nat), s ≤ 2 →
    (stabLoopAux l ((p : Nat) : Int) s t).2 = hasRun4 (List.replicate (s + 1) p ++ l) := by
  induction l with
  | nil =>
    intro p s t hs
    have h4 : hasRun4 (List.replicate (s + 1) p) = false :=
      hasRun4_short (List.replicate (s + 1) p)
        (by simp only [List.length_replicate]; omega)
    rw [List.append_nil, h4]
    rfl
  | cons c rest ih =>
    intro p s t hs
    by_cases hc : c = p
    · subst hc
      by_cases h2 : s = 2
      · subst h2
        show (if 3 ≤ (if ((c : Int) = (c : Int)) then 2 + 1 else 0) then (t + 1, true)
              else stabLoopAux rest (c : Int) _ (t + 1)).2 = _
        rw [if_pos rfl, if_pos (by omega)]
        show true = hasRun4 (List.replicate 3 c ++ c :: rest)
        simp [List.replicate, hasRun4]
      · show (if 3 ≤ (if ((c : Int) = (c : Int)) then s + 1 else 0) then (t + 1, true)
              else stabLoopAux rest (c : Int) (if ((c : Int) = (c : Int)) then s + 1 else 0)
                (t + 1)).2 = _
        rw [if_pos rfl, if_neg (by omega)]
        rw [ih c (s + 1) (t + 1) (by omega)]
        congr 1
        rw [List.replicate_succ' (s + 1)]
        simp
    · have hci : ¬ ((c : Int) = ((p : Nat) : Int)) := by exact_mod_cast hc
      have hpc : ¬ p = c := fun hh => hc hh.symm
      show (if 3 ≤ (if ((c : Int) = (p : Int)) then s + 1 else 0) then (t + 1, true)
            else stabLoopAux rest (c : Int) (if ((c : Int) = (p : Int)) then s + 1 else 0)
              (t + 1)).2 = _
      rw [if_neg hci, if_neg (by omega)]
      rw [ih c 0 (t + 1) (by omega)]
      rw [List.replicate_one, List.singleton_append]
      interval_cases s
      · rw [List.replicate_one, List.singleton_append, hasRun4_cons_ne p c rest hpc]
      · show _ = hasRun4 (List.replicate 2 p ++ c :: rest)
        have : List.replicate 2 p ++ c :: rest = p :: p :: c :: rest := by
          simp [List.replicate]
        rw [this, hasRun4_cons2_ne p c rest hpc, hasRun4_cons_ne p c rest hpc]
      · show _ = hasRun4 (List.replicate 3 p ++ c :: rest)
        have : List.replicate 3 p ++ c :: rest = p :: p :: p :: c :: rest := by
          simp [List.replicate]
        rw [this, hasRun4_cons3_ne p c rest hpc, hasRun4_cons2_ne p c rest hpc,
          hasRun4_cons_ne p c rest hpc]

theorem stabLoopAux_no_break (l : List Nat) : ∀ (prev : Int) (s t : Nat),
    (stabLoopAux l prev s t).2 = false → (stabLoopAux l prev s t).1 = t + l.length := by
  induction l with
  | nil => intro prev s t _; simp [stabLoopAux]
  | cons c rest ih =>
    intro prev s t h
    by_cases h3 : 3 ≤ (if ((c : Int) = prev) then s + 1 else 0)
    · exfalso
      have : (stabLoopAux (c :: rest) prev s t).2 = true := by
        show (if 3 ≤ (if ((c : Int) = prev) then s + 1 else 0) then (t + 1, true)
              else stabLoopAux rest (c : Int) _ (t + 1)).2 = true
        rw [if_pos h3]
      rw [this] at h; exact Bool.true_eq_false.mp h
    · have hstep : stabLoopAux (c :: rest) prev s t =
          stabLoopAux rest (c : Int) (if ((c : Int) = prev) then s + 1 else 0) (t + 1) := by
        show (if 3 ≤ (if ((c : Int) = prev) then s + 1 else 0) then (t + 1, true)
              else stabLoopAux rest (c : Int) (if ((c : Int) = prev) then s + 1 else 0)
                (t + 1)) = _
        rw [if_neg h3]
      rw [hstep] at h ⊢
      rw [ih _ _ _ h]
      simp [Nat.add_comm, Nat.add_assoc, Nat.add_left_comm]

theorem stabLoopAux_le (l : List Nat) : ∀ (prev : Int) (s t : Nat),
    (stabLoopAux l prev s t).1 ≤ t + l.length := by
  induction l with
  | nil => intro prev s t; simp [stabLoopAux]
  | cons c rest ih =>
    intro prev s t
    by_cases h3 : 3 ≤ (if ((c : Int) = prev) then s + 1 else 0)
    · have : stabLoopAux (c :: rest) prev s t = (t + 1, true) := by
        show (if 3 ≤ (if ((c : Int) = prev) then s + 1 else 0) then (t + 1, true)
              else stabLoopAux rest (c : Int) _ (t + 1)) = _
        rw [if_pos h3]
      rw [this]; simp only [List.length_cons]; omega
    · have hstep : stabLoopAux (c :: rest) prev s t =
          stabLoopAux rest (c : Int) (if ((c : Int) = prev) then s + 1 else 0) (t + 1) := by
        show (if 3 ≤ (if ((c : Int) = prev) then s + 1 else 0) then (t + 1, true)
              else stabLoopAux rest (c : Int) (if ((c : Int) = prev) then s + 1 else 0)
                (t + 1)) = _
        rw [if_neg h3]
      rw [hstep]
      calc (stabLoopAux rest (c : Int) _ (t + 1)).1 ≤ (t + 1) + rest.length := ih _ _ _
        _ = t + (c :: rest).length := by simp [Nat.add_comm, Nat.add_assoc, Nat.add_left_comm]

theorem stabilize_run_eq (f : Nat → Nat) :
    (stabilize f).2 = hasRun4 ((List.range 20).map f) := by
  have hr : List.range 20 = 0 :: (List.range 19).map Nat.succ := by decide
  have hm : (List.range 20).map f =
      f 0 :: (List.range 19).map (fun i => f (i + 1)) := by
    rw [hr]; simp [List.map_map, Function.comp, Nat.succ_eq_add_one]
  have hne : ¬ ((f 0 : Int) = (-1 : Int)) := by omega
  show (stabLoopAux ((List.range 20).map f) (-1) 0 0).2 = _
  rw [hm]
  have hstep : stabLoopAux (f 0 :: (List.range 19).map (fun i => f (i + 1))) (-1) 0 0 =
      stabLoopAux ((List.range 19).map (fun i => f (i + 1))) ((f 0 : Nat) : Int) 0 1 := by
    show (if 3 ≤ (if ((f 0 : Int) = -1) then 0 + 1 else 0) then (0 + 1, true)
          else stabLoopAux _ ((f 0 : Nat) : Int) (if ((f 0 : Int) = -1) then 0 + 1 else 0)
            (0 + 1)) = _
    rw [if_neg hne, if_neg (by omega)]
  rw [hstep, stabLoopAux_run _ (f 0) 0 1 (by omega)]
  rw [List.replicate_one, List.singleton_append]

/-- Claim C6 (amended): the stabilization loop is bounded (at most 20
samples), stops early exactly when some sample equals its three immediate
predecessors — the count stays unchanged across 3 consecutive POLLS,
i.e. four consecutive equal samples, not merely "3 consecutive identical
samples" — and otherwise exhausts the 20-sample bound (the final anchor
query then happens after the last sample); for the periodic sampled count
sequence 3,5,5,5,7,… it does not stop early and takes all 20 samples. -/
theorem c6_amended_stabilization :
    (∀ f : Nat → Nat,
      (stabilize f).1 ≤ 20 ∧
      (stabilize f).2 = hasRun4 ((List.range 20).map f) ∧
      ((stabilize f).2 = false → (stabilize f).1 = 20)) ∧
    stabilize seq35557 = (20, false) := by
  refine ⟨fun f => ⟨?_, stabilize_run_eq f, fun h => ?_⟩, by decide⟩
  · have h := stabLoopAux_le ((List.range 20).map f) (-1) 0 0
    simpa [stabilize] using h
  · have h2 := stabLoopAux_no_break ((List.range 20).map f) (-1) 0 0 h
    simpa [stabilize] using h2

/-- Witness for C6 (amended): instantiating at the spec's sample sequence
3,5,5,5,7,… discharges the implication — the loop indeed takes all 20
samples and the 20 samples contain no four-in-a-row equal run. -/
theorem c6_amended_stabilization_witness :
    (stabilize seq35557).1 = 20 ∧ hasRun4 ((List.range 20).map seq35557) = false := by
  have h := c6_amended_stabilization
  refine ⟨(h.1 seq35557).2.2 (by decide), ?_⟩
  rw [← (h.1 seq35557).2.1]; decide

/-! ### Reconciliation -/

theorem applyUpdates_eq_map (upds : List UpdatePayload) :
    ∀ store : List ContestRow, applyUpdates store upds = store.map (chainUpd upds) := by
  induction upds with
  | nil =>
    intro store
    show store = store.map (fun row => row)
    simp
  | cons u rest ih =>
    intro store
    show applyUpdates (store.map (applyUpdate u)) rest = _
    rw [ih, List.map_map]
    rfl

theorem frameEq_refl (a : ContestRow) : frameEq a a := by
  simp [frameEq]

theorem frameEq_trans {a b c : ContestRow} (h1 : frameEq a b) (h2 : frameEq b c) :
    frameEq a c := by
  obtain ⟨a1, a2, a3, a4, a5, a6, a7, a8, a9, a10, a11⟩ := h1
  obtain ⟨b1, b2, b3, b4, b5, b6, b7, b8, b9, b10, b11⟩ := h2
  exact ⟨a1.trans b1, a2.trans b2, a3.trans b3, a4.trans b4, a5.trans b5, a6.trans b6,
    a7.trans b7, a8.trans b8, a9.trans b9, a10.trans b10, a11.trans b11⟩

theorem frameEq_applyUpdate (u : UpdatePayload) (b : ContestRow) :
    frameEq b (applyUpdate u b) := by
  unfold applyUpdate
  by_cases hid : b.id = u.id
  · rw [if_pos hid]
    exact ⟨rfl, rfl, rfl, rfl, rfl, rfl, rfl, rfl, rfl, rfl, rfl⟩
  · rw [if_neg hid]
    exact frameEq_refl b

theorem frameEq_chainUpd (upds : List UpdatePayload) :
    ∀ row : ContestRow, frameEq row (chainUpd upds row) := by
  induction upds with
  | nil => intro row; exact frameEq_refl row
  | cons u rest ih =>
    intro row
    show frameEq row (chainUpd rest (applyUpdate u row))
    exact frameEq_trans (frameEq_applyUpdate u row) (ih (applyUpdate u row))

theorem persistCore_inv (records : List ActivityRecord) (store : List ContestRow)
    (res : PersistResult) (h : persistCore records store = .ok res) :
    ∃ ins upds, stageAll (lookupLast store) records = .ok (ins, upds) ∧
      res = ⟨applyUpdates (store ++ insertRows (maxId store + 1) ins) upds,
             ins.length, upds.length⟩ := by
  unfold persistCore at h
  cases hst : stageAll (lookupLast store) records with
  | error e => rw [hst] at h; exact absurd h (by simp)
  | ok pr =>
    obtain ⟨ins, upds⟩ := pr
    rw [hst] at h
    injection h with h2
    exact ⟨ins, upds, rfl, h2.symm⟩

theorem persistCore_eq (records : List ActivityRecord) (store : List ContestRow)
    (ins : List InsertPayload) (upds : List UpdatePayload)
    (hst : stageAll (lookupLast store) records = .ok (ins, upds)) :
    persistCore records store =
      .ok ⟨applyUpdates (store ++ insertRows (maxId store + 1) ins) upds,
           ins.length, upds.length⟩ := by
  unfold persistCore
  rw [hst]

theorem persistCore_frame (records : List ActivityRecord) (store : List ContestRow)
    (res : PersistResult) (h : persistCore records store = .ok res) :
    ∀ row ∈ store, ∃ row2 ∈ res.store, frameEq row row2 := by
  intro row hrow
  obtain ⟨ins, upds, hst, hres⟩ := persistCore_inv records store res h
  subst hres
  refine ⟨chainUpd upds row, ?_, frameEq_chainUpd upds row⟩
  show chainUpd upds row ∈ applyUpdates (store ++ insertRows (maxId store + 1) ins) upds
  rw [applyUpdates_eq_map]
  exact List.mem_map_of_mem _ (List.mem_append_left _ hrow)

theorem stageAll_inv_pre (idx : String × String → Option Nat)
    (records : List ActivityRecord) (ins : List InsertPayload)
    (upds : List UpdatePayload) (h : stageAll idx records = .ok (ins, upds)) :
    ∃ pres, preAll records = .ok pres ∧
      ins = pres.filterMap
        (fun pre => if (idx pre.key).isSome then none else some (insOf pre)) ∧
      upds = pres.filterMap (fun pre => (idx pre.key).map (fun i => updOf pre i)) := by
  unfold stageAll at h
  cases hp : preAll records with
  | error e => rw [hp] at h; exact absurd h (by simp)
  | ok pres =>
    rw [hp] at h
    injection h with h2
    injection h2 with ha hb
    exact ⟨pres, rfl, ha.symm, hb.symm⟩

theorem preAll_mem (records : List ActivityRecord) :
    ∀ pres, preAll records = .ok pres →
      ∀ r ∈ records, ∀ pre, stagePre r = .ok (some pre) → pre ∈ pres := by
  induction records with
  | nil => intro pres _ r hr; simp at hr
  | cons x rest ih =>
    intro pres hok r hr pre hpre
    unfold preAll at hok
    cases hx : stagePre x with
    | error e => rw [hx] at hok; exact absurd hok (by simp)
    | ok o =>
      rw [hx] at hok
      cases hrest : preAll rest with
      | error e => rw [hrest] at hok; exact absurd hok (by simp)
      | ok tail =>
        rw [hrest] at hok
        rcases List.mem_cons.mp hr with hreq | hrmem
        · subst hreq
          rw [hx] at hpre
          injection hpre with ho
          subst ho
          injection hok with hok2
          rw [← hok2]
          exact List.mem_cons_self pre tail
        · have htail : pre ∈ tail := ih tail hrest r hrmem pre hpre
          cases o with
          | none => injection hok with hok2; rw [← hok2]; exact htail
          | some pre0 =>
            injection hok with hok2
            rw [← hok2]
            exact List.mem_cons_of_mem pre0 htail

theorem insertRows_length (ps : List InsertPayload) :
    ∀ n, (insertRows n ps).length = ps.length := by
  induction ps with
  | nil => intro n; rfl
  | cons p rest ih => intro n; simp [insertRows, ih]

theorem insertRows_keys (ps : List InsertPayload) :
    ∀ n, (insertRows n ps).map (fun row => (row.name, row.organization_name)) =
      ps.map (fun p => (p.name, p.organization_name)) := by
  induction ps with
  | nil => intro n; rfl
  | cons p rest ih => intro n; simp [insertRows, ih]

theorem lookupLast_isSome_of (store : List ContestRow) (k : String × String)
    (h : ∃ row ∈ store, row.name = k.1 ∧ row.organization_name = k.2) :
    (lookupLast store k).isSome := by
  obtain ⟨row, hmem, h1, h2⟩ := h
  have hf : (store.reverse.find?
      (fun row => row.name == k.1 && row.organization_name == k.2)).isSome := by
    rw [List.find?_isSome]
    exact ⟨row, List.mem_reverse.mpr hmem, by simp [h1, h2]⟩
  obtain ⟨r, hr⟩ := Option.isSome_iff_exists.mp hf
  simp [lookupLast, hr]

theorem lookupLast_eq_none_iff (store : List ContestRow) (k : String × String) :
    lookupLast store k = none ↔
      ∀ row ∈ store, ¬(row.name = k.1 ∧ row.organization_name = k.2) := by
  unfold lookupLast
  rw [Option.map_eq_none', List.find?_eq_none]
  constructor
  · intro h row hmem
    have := h row (List.mem_reverse.mpr hmem)
    simpa using this
  · intro h row hmem
    have := h row (List.mem_reverse.mp hmem)
    simpa using this

theorem filterMap_eq_map_of {α β : Type} (f : α → Option β) (g : α → β)
    (l : List α) (h : ∀ x ∈ l, f x = some (g x)) : l.filterMap f = l.map g := by
  induction l with
  | nil => rfl
  | cons x xs ih =>
    rw [List.filterMap_cons_some (h x (by simp)), List.map_cons,
      ih (fun y hy => h y (by simp [hy]))]

theorem length_filterMap_of_isSome {α β : Type} (f : α → Option β) (l : List α)
    (h : ∀ x ∈ l, (f x).isSome) : (l.filterMap f).length = l.length := by
  induction l with
  | nil => rfl
  | cons x xs ih =>
    obtain ⟨b, hb⟩ := Option.isSome_iff_exists.mp (h x (by simp))
    rw [List.filterMap_cons_some hb, List.length_cons, List.length_cons,
      ih (fun y hy => h y (by simp [hy]))]

/-- Claim C2 (amended): reconciliation performs no deletion at all —
there is no expiry sweep. Every row of the store before the run (expired
or not, mentioned by the batch or not) survives the run with its id, key
and every non-update column intact, and the store only grows: final row
count = initial row count + inserted count. -/
theorem c2_amended_no_deletion (records : List ActivityRecord)
    (store : List ContestRow) (res : PersistResult)
    (h : persistCore records store = .ok res) :
    (∀ row ∈ store, ∃ row2 ∈ res.store, frameEq row row2) ∧
    res.store.length = store.length + res.insertedCount := by
  refine ⟨persistCore_frame records store res h, ?_⟩
  obtain ⟨ins, upds, hst, hres⟩ := persistCore_inv records store res h
  subst hres
  show (applyUpdates (store ++ insertRows (maxId store + 1) ins) upds).length = _
  rw [applyUpdates_eq_map, List.length_map, List.length_append, insertRows_length]

/-- Witness for C2 (amended): the run of `c2_counterexample` instantiates
the theorem — the store with the expired row grows from 1 to 2 rows, the
expired row never deleted. -/
theorem c2_amended_no_deletion_witness :
    (⟨[expiredRow,
       ⟨2, "", ⟨2025, 12, 31⟩, "imgA", "T", "Org", "https://a.example.com",
        ⟨2025, 1, 1⟩, "", "", "", "", "", 1⟩], 1, 0⟩ : PersistResult).store.length =
      [expiredRow].length + 1 := by
  have h := c2_amended_no_deletion [recA] [expiredRow]
    ⟨[expiredRow,
      ⟨2, "", ⟨2025, 12, 31⟩, "imgA", "T", "Org", "https://a.example.com",
       ⟨2025, 1, 1⟩, "", "", "", "", "", 1⟩], 1, 0⟩ (by decide)
  exact h.2

theorem insOf_inj (a b : PreStage) (h : insOf a = insOf b) : a = b := by
  cases a; cases b
  simp only [insOf, InsertPayload.mk.injEq] at h
  obtain ⟨h1, h2, h3, h4, h5, h6, h7, h8, h9, h10, h11, h12, h13⟩ := h
  simp_all

/-- Claim C9: the update frame. For every run, every pre-existing row
keeps its id, name, organizationName, categories, imageUrl, siteUrl and
award/benefit/participant/company columns (only start_date, end_date and
views can change); and every valid record whose key is in the loaded
index is staged as an update tuple (start_date, end_date, views, id) of
the matching row's id — never as an insert. -/
theorem c9_update_frame (records : List ActivityRecord) (store : List ContestRow)
    (res : PersistResult) (h : persistCore records store = .ok res) :
    (∀ row ∈ store, ∃ row2 ∈ res.store, frameEq row row2) ∧
    (∀ r ∈ records, ∀ pre, stagePre r = .ok (some pre) →
      ∀ id0, lookupLast store pre.key = some id0 →
        ∃ ins upds, stageAll (lookupLast store) records = .ok (ins, upds) ∧
          updOf pre id0 ∈ upds ∧ insOf pre ∉ ins) := by
  refine ⟨persistCore_frame records store res h, ?_⟩
  intro r hr pre hpre id0 hid
  obtain ⟨ins, upds, hst, _⟩ := persistCore_inv records store res h
  obtain ⟨pres, hpa, hins, hupds⟩ := stageAll_inv_pre _ _ _ _ hst
  have hmem : pre ∈ pres := preAll_mem records pres hpa r hr pre hpre
  refine ⟨ins, upds, hst, ?_, ?_⟩
  · rw [hupds]
    exact List.mem_filterMap.mpr ⟨pre, hmem, by rw [hid]; rfl⟩
  · rw [hins]
    intro hcontra
    obtain ⟨pre2, _, hsome⟩ := List.mem_filterMap.mp hcontra
    by_cases hs : (lookupLast store pre2.key).isSome
    · rw [if_pos hs] at hsome; exact absurd hsome (by simp)
    · rw [if_neg hs] at hsome
      injection hsome with he
      have hpp : pre2 = pre := insOf_inj pre2 pre he
      subst hpp
      rw [hid] at hs
      exact hs rfl

/-- Witness for C9: reconciling `recA` (key ("T", "Org")) against the
store holding `rowTOrg` (same key, id 5): the theorem yields the frame
equality for the updated row and the staged update tuple. -/
theorem c9_update_frame_witness :
    frameEq rowTOrg ⟨5, "cat", ⟨2025, 12, 31⟩, "imgOld", "T", "Org",
      "https://old.example.com", ⟨2025, 1, 1⟩, "aw", "b", "ab", "tp", "ct", 1⟩ ∧
    updOf ⟨⟨2025, 1, 1⟩, ⟨2025, 12, 31⟩, "imgA", "https://a.example.com", "T", "Org",
      "", "", "", "", "", "", 1⟩ 5 ∈
      [(⟨⟨2025, 1, 1⟩, ⟨2025, 12, 31⟩, 1, 5⟩ : UpdatePayload)] := by
  have h := c9_update_frame [recA] [rowTOrg]
    ⟨[⟨5, "cat", ⟨2025, 12, 31⟩, "imgOld", "T", "Org", "https://old.example.com",
       ⟨2025, 1, 1⟩, "aw", "b", "ab", "tp", "ct", 1⟩], 0, 1⟩ (by decide)
  constructor
  · obtain ⟨row2, hm, hf⟩ := h.1 rowTOrg (by simp)
    have he := List.mem_singleton.mp hm
    rw [he] at hf
    exact hf
  · obtain ⟨ins, upds, hstEq, hmem, _⟩ := h.2 recA (by simp)
      ⟨⟨2025, 1, 1⟩, ⟨2025, 12, 31⟩, "imgA", "https://a.example.com", "T", "Org",
       "", "", "", "", "", "", 1⟩ (by decide) 5 (by decide)
    have hpair : (ins, upds) =
        (([] : List InsertPayload),
         [(⟨⟨2025, 1, 1⟩, ⟨2025, 12, 31⟩, 1, 5⟩ : UpdatePayload)]) := by
      have h2 : (Except.ok (ins, upds) :
          Except Unit (List InsertPayload × List UpdatePayload)) =
          Except.ok (([] : List InsertPayload),
            [(⟨⟨2025, 1, 1⟩, ⟨2025, 12, 31⟩, 1, 5⟩ : UpdatePayload)]) := by
        rw [← hstEq]; decide
      injection h2
    injection hpair with _ h4
    rw [h4] at hmem
    exact hmem

/-- Claim C10: the organization-name fallback. A record with null
`organization_name` that passes the rest of the validity filter is NOT
dropped: its organization becomes its title, so its reconciliation key is
(title, title); and when the title is also null the fallback chain ends
at the literal "정보없음". -/
theorem c10_org_fallback :
    (∀ (r : ActivityRecord) (v : Int), r.organization_name = none →
      viewsOf r.views = some v →
      (_parse_date r.start_date).isSome = true →
      (_parse_date r.end_date).isSome = true →
      truthyStr r.activity_img = true →
      truthyStr (pyOr r.activity_url r.detail_url) = true →
      truthyStr r.activity_title = true →
      ∃ pre, stagePre r = .ok (some pre) ∧ pre.organization = pre.title ∧
        pre.key = (pre.title, pre.title)) ∧
    (∀ r : ActivityRecord, r.organization_name = none → r.activity_title = none →
      orgFallback r = some "정보없음") := by
  constructor
  · intro r v horg hv hsd hed himg hsite htitle
    obtain ⟨sd, hsd'⟩ := Option.isSome_iff_exists.mp hsd
    obtain ⟨ed, hed'⟩ := Option.isSome_iff_exists.mp hed
    have horg2 : orgFallback r = r.activity_title := by
      unfold orgFallback
      rw [horg]
      show pyOr r.activity_title (some "정보없음") = r.activity_title
      unfold pyOr
      rw [htitle]
      simp
    refine ⟨⟨sd, ed, r.activity_img.getD "", (pyOr r.activity_url r.detail_url).getD "",
      r.activity_title.getD "", (orgFallback r).getD "",
      String.intercalate "," r.activity_category, r.award_scale.getD "",
      r.benefits.getD "", r.additional_benefits.getD "", r.target_participants.getD "",
      r.company_type.getD "", v⟩, ?_, ?_, ?_⟩
    · simp only [stagePre, hv, hsd', hed', himg, hsite, htitle, Bool.and_self, if_true]
    · show (orgFallback r).getD "" = r.activity_title.getD ""
      rw [horg2]
    · show ((r.activity_title.getD "", (orgFallback r).getD "") : String × String) =
        (r.activity_title.getD "", r.activity_title.getD "")
      rw [horg2]
  · intro r h1 h2
    unfold orgFallback
    rw [h1, h2]
    rfl

/-- Witness for C10: a record with title "T10" and null organization is
staged with key ("T10", "T10"); a record with both title and organization
null falls back to "정보없음". -/
theorem c10_org_fallback_witness :
    PreStage.key ⟨⟨2025, 1, 1⟩, ⟨2025, 12, 31⟩, "img10", "https://u", "T10", "T10",
      "", "", "", "", "", "", 0⟩ = ("T10", "T10") ∧
    orgFallback ⟨none, none, [], none, none, none, none, none,
      none, none, none, none, none, none⟩ = some "정보없음" := by
  constructor
  · obtain ⟨pre, hst, _, hk⟩ := c10_org_fallback.1
      ⟨some "T10", some "https://u", [], some "2025.01.01", some "2025.12.31",
       some "img10", none, some "https://d10", none, none, none, none, none, none⟩ 0
      rfl (by decide) (by decide) (by decide) (by decide) (by decide) (by decide)
    have hconc : stagePre
        ⟨some "T10", some "https://u", [], some "2025.01.01", some "2025.12.31",
         some "img10", none, some "https://d10", none, none, none, none, none, none⟩ =
        Except.ok (some (⟨⟨2025, 1, 1⟩, ⟨2025, 12, 31⟩, "img10", "https://u", "T10",
          "T10", "", "", "", "", "", "", 0⟩ : PreStage)) := by decide
    have hpre : some pre = some (⟨⟨2025, 1, 1⟩, ⟨2025, 12, 31⟩, "img10", "https://u",
        "T10", "T10", "", "", "", "", "", "", 0⟩ : PreStage) := by
      injection hst.symm.trans hconc
    injection hpre with hpre2
    rw [hpre2] at hk
    have ht : (⟨⟨2025, 1, 1⟩, ⟨2025, 12, 31⟩, "img10", "https://u", "T10", "T10",
        "", "", "", "", "", "", 0⟩ : PreStage).title = "T10" := rfl
    rw [ht] at hk
    exact hk
  · exact c10_org_fallback.2 _ rfl rfl

/-- Claim C4 (amended): the validity filter with the siteUrl fallback: a
record is included in reconciliation iff its start and end dates parse as
`%Y.%m.%d` dates, its image URL is truthy (non-null, non-empty),
`activity_url or detail_url` is truthy — so a record whose siteUrl is
null but whose detailUrl is present is KEPT — and its title is truthy (a
record with null title is dropped even if all other fields are present). -/
theorem c4_amended_filter (r : ActivityRecord) (v : Int)
    (hv : viewsOf r.views = some v) :
    (∃ pre, stagePre r = .ok (some pre)) ↔
      ((_parse_date r.start_date).isSome = true ∧
       (_parse_date r.end_date).isSome = true ∧
       truthyStr r.activity_img = true ∧
       truthyStr (pyOr r.activity_url r.detail_url) = true ∧
       truthyStr r.activity_title = true) := by
  cases hsd : _parse_date r.start_date with
  | none =>
    simp only [stagePre, hv, hsd]
    cases hed : _parse_date r.end_date <;> simp
  | some sd =>
    cases hed : _parse_date r.end_date with
    | none => simp only [stagePre, hv, hsd, hed]; simp
    | some ed =>
      simp only [stagePre, hv, hsd, hed]
      cases hc : (truthyStr r.activity_img &&
          truthyStr (pyOr r.activity_url r.detail_url) &&
          truthyStr r.activity_title) with
      | true =>
        have hand := Bool.and_eq_true_iff.mp hc
        have hand2 := Bool.and_eq_true_iff.mp hand.1
        simp [hand2.1, hand2.2, hand.2]
      | false =>
        constructor
        · intro hex
          obtain ⟨pre, hpre⟩ := hex
          simp at hpre
        · rintro ⟨-, -, h3, h4, h5⟩
          rw [h3, h4, h5] at hc
          simp at hc

/-- Witness for C4 (amended): the siteUrl-null record `recSiteNull` is
included — its detailUrl stands in for the siteUrl. -/
theorem c4_amended_filter_witness :
    (_parse_date recSiteNull.start_date).isSome = true ∧
    recSiteNull.activity_url = none := by
  have h := (c4_amended_filter recSiteNull 3 (by decide)).mpr
    ⟨by decide, by decide, by decide, by decide, by decide⟩
  obtain ⟨pre, _⟩ := h
  exact ⟨by decide, rfl⟩

theorem stageAll_empty_store (records : List ActivityRecord) (pres : List PreStage)
    (hpre : preAll records = .ok pres) :
    stageAll (lookupLast []) records = .ok (pres.map insOf, []) := by
  simp only [stageAll, hpre]
  rw [show pres.filterMap
      (fun pre => if (lookupLast [] pre.key).isSome then none else some (insOf pre)) =
        pres.map insOf from
      filterMap_eq_map_of _ _ _ (fun pre _ => rfl)]
  rw [show pres.filterMap
      (fun pre => (lookupLast [] pre.key).map (fun i => updOf pre i)) = [] from
      List.filterMap_eq_nil_iff.mpr (fun pre _ => rfl)]

theorem stageAll_all_present (records : List ActivityRecord) (pres : List PreStage)
    (idx : String × String → Option Nat) (hpre : preAll records = .ok pres)
    (hk : ∀ pre ∈ pres, (idx pre.key).isSome = true) :
    ∃ upds, stageAll idx records = .ok ([], upds) ∧ upds.length = pres.length := by
  have h1 : pres.filterMap
      (fun pre => if (idx pre.key).isSome then none else some (insOf pre)) = [] :=
    List.filterMap_eq_nil_iff.mpr (fun pre hm => by rw [hk pre hm]; rfl)
  have h2 : (pres.filterMap (fun pre => (idx pre.key).map (fun i => updOf pre i))).length
      = pres.length :=
    length_filterMap_of_isSome _ _ (fun pre hm => by
      obtain ⟨i, hi⟩ := Option.isSome_iff_exists.mp (hk pre hm)
      rw [hi]; rfl)
  refine ⟨pres.filterMap (fun pre => (idx pre.key).map (fun i => updOf pre i)), ?_, h2⟩
  simp only [stageAll, hpre]
  rw [h1]

/-- Claim C3 (amended): reconciliation never stages an insert for a key
already in the store at the start of the run, but it does NOT deduplicate
keys within the incoming batch (two valid records with the same key are
both inserted). Reconciling a batch twice against an initially empty
store yields a final row count equal to the number of staged (valid)
records — which equals the number of distinct keys whenever the staged
keys are pairwise distinct — with the first run producing only inserts
and the second run only updates, leaving the row count unchanged. -/
theorem c3_amended_reconcile :
    (∀ (store : List ContestRow) (records : List ActivityRecord) ins upds,
        stageAll (lookupLast store) records = .ok (ins, upds) →
        ∀ p ∈ ins, ∀ row ∈ store,
          ¬(row.name = p.name ∧ row.organization_name = p.organization_name)) ∧
    (∀ (records : List ActivityRecord) (res1 : PersistResult),
        persistCore records [] = .ok res1 →
        res1.updatedCount = 0 ∧
        res1.insertedCount = (stagedKeys records).length ∧
        res1.store.length = (stagedKeys records).length ∧
        ((stagedKeys records).Nodup →
          res1.store.length = (stagedKeys records).dedup.length) ∧
        ∃ res2, persistCore records res1.store = .ok res2 ∧
          res2.insertedCount = 0 ∧ res2.updatedCount = res1.insertedCount ∧
          res2.store.length = res1.store.length) := by
  constructor
  · intro store records ins upds hst p hp row hrow
    obtain ⟨pres, hpa, hins, hupds⟩ := stageAll_inv_pre _ _ _ _ hst
    rw [hins] at hp
    obtain ⟨pre, hm, hsome⟩ := List.mem_filterMap.mp hp
    by_cases hs : (lookupLast store pre.key).isSome
    · rw [if_pos hs] at hsome; exact absurd hsome (by simp)
    · rw [if_neg hs] at hsome
      injection hsome with he
      have hnone : lookupLast store pre.key = none := Option.not_isSome_iff_eq_none.mp hs
      have hall := (lookupLast_eq_none_iff store pre.key).mp hnone
      intro hcon
      have hn : p.name = pre.title := by rw [← he]; rfl
      have ho : p.organization_name = pre.organization := by rw [← he]; rfl
      exact hall row hrow ⟨hcon.1.trans hn, hcon.2.trans ho⟩
  · intro records res1 h1
    obtain ⟨ins1, upd1, hst1, hres1⟩ := persistCore_inv records [] res1 h1
    obtain ⟨pres, hpa, hins1, hupd1⟩ := stageAll_inv_pre _ _ _ _ hst1
    have hins1' : ins1 = pres.map insOf := by
      rw [hins1]; exact filterMap_eq_map_of _ _ _ (fun pre _ => rfl)
    have hupd1' : upd1 = [] := by
      rw [hupd1]; exact List.filterMap_eq_nil_iff.mpr (fun pre _ => rfl)
    have hkeysEq : stagedKeys records = pres.map PreStage.key := by
      unfold stagedKeys; rw [hpa]
    subst hres1
    subst hins1'
    subst hupd1'
    have hstore : applyUpdates ([] ++ insertRows (maxId [] + 1) (pres.map insOf)) [] =
        insertRows 1 (pres.map insOf) := rfl
    refine ⟨rfl, ?_, ?_, ?_, ?_⟩
    · show (pres.map insOf).length = (stagedKeys records).length
      rw [hkeysEq]; simp
    · show (applyUpdates ([] ++ insertRows (maxId [] + 1) (pres.map insOf)) []).length = _
      rw [hstore, insertRows_length, hkeysEq]; simp
    · intro hnd
      rw [List.Nodup.dedup hnd]
      show (applyUpdates ([] ++ insertRows (maxId [] + 1) (pres.map insOf)) []).length = _
      rw [hstore, insertRows_length, hkeysEq]; simp
    · have hkeys : ∀ pre ∈ pres,
          ((lookupLast (applyUpdates ([] ++ insertRows (maxId [] + 1) (pres.map insOf)) []))
            pre.key).isSome = true := by
        intro pre hm
        rw [hstore]
        apply lookupLast_isSome_of
        have hmem1 : (pre.title, pre.organization) ∈
            (pres.map insOf).map (fun p => (p.name, p.organization_name)) := by
          rw [List.map_map]
          exact List.mem_map_of_mem _ hm
        rw [← insertRows_keys (pres.map insOf) 1] at hmem1
        obtain ⟨row, hrow, heq⟩ := List.mem_map.mp hmem1
        injection heq with e1 e2
        exact ⟨row, hrow, e1, e2⟩
      obtain ⟨upd2, hst2, hlen2⟩ := stageAll_all_present records pres _ hpa hkeys
      have h2 := persistCore_eq records _ [] upd2 hst2
      refine ⟨_, h2, rfl, ?_, ?_⟩
      · show upd2.length = (pres.map insOf).length
        rw [hlen2]; simp
      · rw [applyUpdates_eq_map, List.length_map]
        show ((applyUpdates ([] ++ insertRows (maxId [] + 1) (pres.map insOf)) []) ++
          ([] : List ContestRow)).length = _
        rw [List.append_nil]

/-- Witness for C3 (amended): reconciling the single-record batch
`[recA]` against the empty store: one insert, row count 1 = number of
distinct staged keys, and the Nodup hypothesis holds for its one key. -/
theorem c3_amended_reconcile_witness :
    (⟨[⟨1, "", ⟨2025, 12, 31⟩, "imgA", "T", "Org", "https://a.example.com",
        ⟨2025, 1, 1⟩, "", "", "", "", "", 1⟩], 1, 0⟩ : PersistResult).updatedCount = 0 ∧
    (⟨[⟨1, "", ⟨2025, 12, 31⟩, "imgA", "T", "Org", "https://a.example.com",
        ⟨2025, 1, 1⟩, "", "", "", "", "", 1⟩], 1, 0⟩ : PersistResult).store.length =
      (stagedKeys [recA]).dedup.length := by
  have h := c3_amended_reconcile.2 [recA]
    ⟨[⟨1, "", ⟨2025, 12, 31⟩, "imgA", "T", "Org", "https://a.example.com",
       ⟨2025, 1, 1⟩, "", "", "", "", "", 1⟩], 1, 0⟩ (by decide)
  exact ⟨h.1, h.2.2.2.1 (by decide)⟩


/-- Claim C8 (amended): a missing `RDS_URL` (the required RDS
configuration) is fatal, but only at the PERSISTENCE step: `main` runs
the whole crawl first — the pages get visited — and only afterwards does
`persist_contests_to_rds` read the required configuration and raise the
configuration error; and if the crawl yields no records the configuration
is never checked at all and `main` succeeds. -/
theorem c8_amended_config_after_crawl (env : String → Option String)
    (pages : Nat → Option (List String)) (details : String → Option ActivityRecord)
    (store : List ContestRow) (mp : Int)
    (h1 : pyIntStr ((env "LINKAREER_PAGE_LIMIT").getD "100") = some mp)
    (h2 : env "LINKAREER_PER_PAGE_LIMIT" = none)
    (h3 : env "SKIP_DB_WRITE" = none)
    (h4 : env "RDS_URL" = none)
    (h5 : (crawl_pages_by_click pages details mp.toNat none).crashed = none) :
    mainModel env pages details store =
      (crawl_pages_by_click pages details mp.toNat none,
       if (crawl_pages_by_click pages details mp.toNat none).collected.isEmpty
       then .ok (some ⟨store, 0, 0⟩)
       else .error (.persistFail (.configMissing "RDS_URL"))) := by
  unfold mainModel
  rw [h1]
  simp only [h2, Option.map_none', h5]
  rw [h3]
  rw [if_neg (by decide : ¬(lowerAscii ((none : Option String).getD "false") = "true"))]
  by_cases hc : (crawl_pages_by_click pages details mp.toNat none).collected.isEmpty
  · have hp : persist_contests_to_rds env
        (crawl_pages_by_click pages details mp.toNat none).collected store =
        .ok ⟨store, 0, 0⟩ := by
      unfold persist_contests_to_rds
      rw [if_pos hc]
    simp only [hp]
    rw [if_pos hc]
  · have hp : persist_contests_to_rds env
        (crawl_pages_by_click pages details mp.toNat none).collected store =
        .error (.configMissing "RDS_URL") := by
      unfold persist_contests_to_rds
      rw [if_neg hc]
      simp only [_get_required_env, h4]
    simp only [hp]
    rw [if_neg hc]

/-- Witness for C8 (amended): in the environment with only the page limit
set, a one-page crawl that extracts one record runs to completion and
then `main` fails with the missing-`RDS_URL` configuration error. -/
theorem c8_amended_config_after_crawl_witness :
    mainModel envOnlyPageLimit pagesOne detailsOk [] =
      (crawl_pages_by_click pagesOne detailsOk 1 none,
       .error (.persistFail (.configMissing "RDS_URL"))) := by
  have h := c8_amended_config_after_crawl envOnlyPageLimit pagesOne detailsOk [] 1
    (by decide) (by decide) (by decide) (by decide) (by decide)
  rw [show ((1 : Int)).toNat = 1 from rfl] at h
  rw [h]
  decide
